import Mathlib

set_option maxHeartbeats 1000000

/-!
Verification of the panw-utils dispatch/aggregate scripts.

Each definition is a shallow embedding of a function from the repository
(src/panw_utils/...). Transport collaborators (urllib.request.urlopen,
netmiko.ConnectHandler, XML parsing of server responses) are opaque per the
design and are passed in as explicit arguments of type Except/Option/function.
-/

/-! ## Piped-stdin target-list processing
(get_panw_api_key.main, run_panw_cmd.main, get_panw_config.main,
get_panw_interfaces.main: the block
 args.hosts = [i.strip() for i in sys.stdin]
 args.hosts = list(filter(None, args.hosts))) -/

/-- Python str.isspace characters for ASCII input (the set str.strip removes). -/
def pySpace (c : Char) : Bool :=
  c = ' ' || c = '\t' || c = '\n' || c = '\r' || c = '\x0b' || c = '\x0c'

/-- Python str.strip(): remove leading and trailing whitespace. -/
def pyStrip (s : String) : String :=
  String.mk (((s.data.dropWhile pySpace).reverse.dropWhile pySpace).reverse)

/-- The stdin branch: strip each raw line, then drop falsy (empty) strings,
as in
 args.hosts = [i.strip() for i in sys.stdin]
 args.hosts = list(filter(None, args.hosts)). -/
def readStdinHosts (lines : List String) : List String :=
  (lines.map pyStrip).filter (fun s => s != "")

/-! ## get_panw_firewalls.parse_xml and the rendering sort
(src/panw_utils/get_panw_firewalls.py) -/

/-- One `<entry>` element under ./result/devices of the response document.
`connected` is a plain String because the source reads
firewall.find('connected').text unconditionally; the other fields are
Option String, `none` modelling the AttributeError path (missing element or
missing text) that the source converts to 'n/a'. -/
structure DeviceEntry where
  connected : String
  hostname : Option String
  serial : Option String
  mgmt_ip : Option String
  model : Option String
  uptime : Option String
  sw_version : Option String
deriving DecidableEq

/-- The per-device attribute record stored as a dict value by parse_xml. -/
structure FwAttrs where
  hostname : String
  mgmt_ip : String
  model : String
  connected : String
  uptime : String
  sw_version : String
deriving DecidableEq

/-- Python dict lookup on the insertion-ordered association list model. -/
def alistLookup (k : String) : List (String × FwAttrs) → Option FwAttrs
  | [] => none
  | (k2, v) :: rest => if k = k2 then some v else alistLookup k rest

/-- Python dict.update({k: v}) on an insertion-ordered association list:
when the key exists its value is replaced in place (the key keeps its
original position), otherwise the pair is appended at the end. -/
def dictUpdate : List (String × FwAttrs) → String → FwAttrs → List (String × FwAttrs)
  | [], k, v => [(k, v)]
  | (k2, v2) :: rest, k, v =>
      if k2 = k then (k, v) :: rest else (k2, v2) :: dictUpdate rest k v

/-- The two `continue` guards at the top of the parse_xml loop body. -/
def keepEntry (terse : Bool) (state : String) (e : DeviceEntry) : Bool :=
  if terse && !(e.connected == "yes") then false
  else if (state == "disconnected" || state == "not-connected")
      && e.connected == "yes" then false
  else true

/-- hostname = firewall.find("hostname").text.lower() + '.wsgc.com',
with AttributeError defaulted to 'n/a'. -/
def entryHostname (e : DeviceEntry) : String :=
  match e.hostname with
  | some h => h.toLower ++ ".wsgc.com"
  | none => "n/a"

/-- The try/except AttributeError default for the remaining fields. -/
def entryField (f : Option String) : String := f.getD "n/a"

/-- serial = firewall.find('serial').text, defaulted to 'n/a'. -/
def entrySerial (e : DeviceEntry) : String := entryField e.serial

/-- The dict value built for one kept entry in parse_xml. -/
def attrsOf (e : DeviceEntry) : FwAttrs :=
  { hostname := entryHostname e
    mgmt_ip := entryField e.mgmt_ip
    model := entryField e.model
    connected := e.connected
    uptime := entryField e.uptime
    sw_version := entryField e.sw_version }

/-- One iteration of the parse_xml loop body. -/
def parseStep (terse : Bool) (state : String)
    (acc : List (String × FwAttrs)) (e : DeviceEntry) : List (String × FwAttrs) :=
  if keepEntry terse state e then dictUpdate acc (entrySerial e) (attrsOf e) else acc

/-- parse_xml: fold the loop body over the device entries of the response,
producing the results dict keyed by serial number. -/
def parse_xml (terse : Bool) (state : String) (entries : List DeviceEntry) :
    List (String × FwAttrs) :=
  entries.foldl (parseStep terse state) []

/-- The last kept entry whose serial is `s`
(the entry whose attributes survive in the dict). -/
def lastKeptWithSerial (terse : Bool) (state : String) (s : String)
    (entries : List DeviceEntry) : Option DeviceEntry :=
  entries.foldl
    (fun acc e => if keepEntry terse state e && entrySerial e == s then some e else acc)
    none

lemma alistLookup_dictUpdate (s k : String) (v : FwAttrs)
    (m : List (String × FwAttrs)) :
    alistLookup s (dictUpdate m k v) = if s = k then some v else alistLookup s m := by
  induction m with
  | nil => simp [dictUpdate, alistLookup]
  | cons p rest ih =>
    obtain ⟨k2, v2⟩ := p
    by_cases hp : k2 = k
    · subst hp
      by_cases hs : s = k2
      · simp [dictUpdate, alistLookup, hs]
      · simp [dictUpdate, alistLookup, hs]
    · by_cases hs2 : s = k2
      · have hsk : ¬ s = k := fun hc => hp ((hs2.symm.trans hc).symm ▸ rfl)
        simp [dictUpdate, alistLookup, hp, hs2, hsk]
      · simp [dictUpdate, alistLookup, hp, hs2, ih]

lemma dictUpdate_length (m : List (String × FwAttrs)) (k : String) (v : FwAttrs) :
    (dictUpdate m k v).length ≤ m.length + 1 := by
  induction m with
  | nil => simp [dictUpdate]
  | cons p rest ih =>
    obtain ⟨k2, v2⟩ := p
    by_cases hp : k2 = k
    · simp [dictUpdate, hp]
    · simp only [dictUpdate, if_neg hp, List.length_cons]
      omega

lemma foldl_last_opt (cond : DeviceEntry → Bool) :
    ∀ (entries : List DeviceEntry) (a0 : Option DeviceEntry),
      entries.foldl (fun acc e => if cond e then some e else acc) a0 =
        match entries.foldl (fun acc e => if cond e then some e else acc) none with
        | some x => some x
        | none => a0 := by
  intro entries
  induction entries with
  | nil => intro a0; rfl
  | cons e rest ih =>
    intro a0
    simp only [List.foldl_cons]
    by_cases hc : cond e
    · rw [if_pos hc, if_pos hc, ih (some e)]
      cases List.foldl (fun acc e => if cond e then some e else acc) none rest <;> rfl
    · rw [if_neg hc, if_neg hc]
      exact ih a0

lemma parse_xml_loop (terse : Bool) (state s : String) :
    ∀ (entries : List DeviceEntry) (acc : List (String × FwAttrs)),
      alistLookup s (entries.foldl (parseStep terse state) acc) =
        match lastKeptWithSerial terse state s entries with
        | some e => some (attrsOf e)
        | none => alistLookup s acc := by
  intro entries
  induction entries with
  | nil => intro acc; rfl
  | cons e rest ih =>
    intro acc
    have hlast : lastKeptWithSerial terse state s (e :: rest) =
        match lastKeptWithSerial terse state s rest with
        | some x => some x
        | none =>
            if keepEntry terse state e && entrySerial e == s then some e else none := by
      unfold lastKeptWithSerial
      simp only [List.foldl_cons]
      by_cases hc : keepEntry terse state e && entrySerial e == s
      · rw [if_pos hc]
        exact foldl_last_opt _ rest (some e)
      · rw [if_neg hc]
        cases List.foldl
            (fun acc e =>
              if keepEntry terse state e && entrySerial e == s then some e else acc)
            none rest <;> rfl
    simp only [List.foldl_cons]
    rw [ih (parseStep terse state acc e), hlast]
    cases hrest : lastKeptWithSerial terse state s rest with
    | some e2 => rfl
    | none =>
      by_cases hk : keepEntry terse state e
      · by_cases hser : entrySerial e = s
        · subst hser
          simp [parseStep, hk, alistLookup_dictUpdate]
        · have hbe : (entrySerial e == s) = false := by
            simpa using hser
          have hs2 : ¬ s = entrySerial e := fun hc => hser hc.symm
          simp [parseStep, hk, hbe, alistLookup_dictUpdate, hs2]
      · simp [parseStep, hk]

lemma parse_xml_loop_length (terse : Bool) (state : String) :
    ∀ (entries : List DeviceEntry) (acc : List (String × FwAttrs)),
      (entries.foldl (parseStep terse state) acc).length ≤
        acc.length + entries.length := by
  intro entries
  induction entries with
  | nil => intro acc; simp
  | cons e rest ih =>
    intro acc
    have hstep : (parseStep terse state acc e).length ≤ acc.length + 1 := by
      unfold parseStep
      by_cases hk : keepEntry terse state e
      · simpa [hk] using dictUpdate_length acc (entrySerial e) (attrsOf e)
      · simp [hk]
    simp only [List.foldl_cons, List.length_cons]
    calc (List.foldl (parseStep terse state) (parseStep terse state acc e) rest).length
        ≤ (parseStep terse state acc e).length + rest.length := ih _
      _ ≤ acc.length + 1 + rest.length := by omega
      _ = acc.length + (rest.length + 1) := by omega

/-- First device entry of the duplicate-serial example: no serial element. -/
def dupSerialFirst : DeviceEntry :=
  { connected := "yes", hostname := some "FW-One", serial := none,
    mgmt_ip := some "10.0.0.1", model := some "PA-220",
    uptime := some "10 days", sw_version := some "9.1.0" }

/-- Second device entry of the duplicate-serial example: no serial element. -/
def dupSerialSecond : DeviceEntry :=
  { connected := "yes", hostname := some "FW-Two", serial := none,
    mgmt_ip := some "10.0.0.2", model := some "PA-220",
    uptime := some "3 days", sw_version := some "9.1.0" }

/-- The duplicate-serial example response: both entries default to serial
'n/a'. -/
def dupSerialEntries : List DeviceEntry := [dupSerialFirst, dupSerialSecond]

/-- C8: parse_xml returns a mapping keyed by each device entry's serial
number; when several kept entries share a serial string only the
last-parsed entry's attributes survive, the mapping never has more rows
than the response has entries, and on a concrete response whose two
entries both default their serial to 'n/a' the row count (1) is strictly
below the entry count (2). -/
theorem parse_xml_serial_last_wins :
    (∀ (terse : Bool) (state s : String) (entries : List DeviceEntry),
        alistLookup s (parse_xml terse state entries) =
          (lastKeptWithSerial terse state s entries).map attrsOf)
    ∧ (∀ (terse : Bool) (state : String) (entries : List DeviceEntry),
        (parse_xml terse state entries).length ≤ entries.length)
    ∧ (parse_xml false "all" dupSerialEntries).length < dupSerialEntries.length
    ∧ alistLookup "n/a" (parse_xml false "all" dupSerialEntries) =
        some (attrsOf dupSerialSecond) := by
  refine ⟨?_, ?_, ?_, ?_⟩
  · intro terse state s entries
    rw [parse_xml, parse_xml_loop terse state s entries []]
    cases lastKeptWithSerial terse state s entries <;> rfl
  · intro terse state entries
    simpa using parse_xml_loop_length terse state entries []
  · decide
  · rw [parse_xml, parse_xml_loop false "all" "n/a" dupSerialEntries [],
      show lastKeptWithSerial false "all" "n/a" dupSerialEntries = some dupSerialSecond
        by decide]

/-- The sort key of get_panw_firewalls.main:
 key=lambda i: (i[1]['hostname'] == 'n/a', i[1]['hostname'])
Python compares these pairs lexicographically with False < True. -/
def hostKeyLe (a b : String) : Bool :=
  (!(a == "n/a") && (b == "n/a")) ||
    (((a == "n/a") == (b == "n/a")) && decide (a ≤ b))

/-- The comparison applied to dict items by sorted(firewalls.items(), key=...). -/
def fwLe (a b : String × FwAttrs) : Bool := hostKeyLe a.2.hostname b.2.hostname

/-- sorted_firewalls = dict(sorted(firewalls.items(), key=...)): Python sorted
is a stable mergesort and dict() preserves the sorted item order. -/
def sorted_firewalls (fws : List (String × FwAttrs)) : List (String × FwAttrs) :=
  fws.mergeSort fwLe

/-- The hostname column of the rendered rows, in output order
(output() iterates the sorted dict items in order, printing one row each). -/
def renderedHostnames (terse : Bool) (state : String)
    (entries : List DeviceEntry) : List String :=
  (sorted_firewalls (parse_xml terse state entries)).map (fun p => p.2.hostname)

lemma hostKeyLe_trans (a b c : String) (h1 : hostKeyLe a b = true)
    (h2 : hostKeyLe b c = true) : hostKeyLe a c = true := by
  unfold hostKeyLe at h1 h2 ⊢
  by_cases ha : a = "n/a" <;> by_cases hb : b = "n/a" <;> by_cases hcc : c = "n/a" <;>
    simp [ha, hb, hcc] at h1 h2 ⊢ <;>
    try exact le_trans h1 h2

lemma hostKeyLe_total (a b : String) : (hostKeyLe a b || hostKeyLe b a) = true := by
  unfold hostKeyLe
  by_cases ha : a = "n/a" <;> by_cases hb : b = "n/a" <;> simp [ha, hb] <;>
    first
    | exact le_total a b
    | exact le_total a.data b.data
    | exact Or.inl (le_refl _)

lemma hostKeyLe_na (a b : String) (ha : a = "n/a") (h : hostKeyLe a b = true) :
    b = "n/a" := by
  subst ha
  unfold hostKeyLe at h
  by_cases hb : b = "n/a"
  · exact hb
  · simp [hb] at h

/-- C9: the rendered rows are ordered by the key
(hostname == 'n/a', hostname): consecutive-pairwise the key comparison
holds (so among rows with real hostnames the hostname column ascends), and
every row whose hostname is the placeholder 'n/a' comes after every row
with a real hostname. -/
theorem rendered_rows_sorted (terse : Bool) (state : String)
    (entries : List DeviceEntry) :
    List.Pairwise (fun a b => hostKeyLe a b = true)
        (renderedHostnames terse state entries)
    ∧ List.Pairwise (fun a b => a = "n/a" → b = "n/a")
        (renderedHostnames terse state entries) := by
  have hs : List.Pairwise (fun a b => fwLe a b = true)
      ((parse_xml terse state entries).mergeSort fwLe) :=
    @List.sorted_mergeSort _ fwLe
      (fun a b c h1 h2 => hostKeyLe_trans _ _ _ h1 h2)
      (fun a b => hostKeyLe_total _ _) _
  have hmap : List.Pairwise (fun a b => hostKeyLe a b = true)
      (renderedHostnames terse state entries) := by
    unfold renderedHostnames sorted_firewalls
    exact hs.map _ (fun a b h => h)
  exact ⟨hmap, hmap.imp (fun h ha => hostKeyLe_na _ _ ha h)⟩


/-! ## The dispatch loop of get_panw_api_key.main (the same skeleton appears
in run_panw_cmd.main, get_panw_config.main and get_panw_interfaces.main):

 worker_threads = []
 for host in args.hosts:
     t = threading.Thread(target=worker, args=(args, host))
     worker_threads.append(t)
     t.start()
 for t in worker_threads:
     t.join()
 print_queue.join()
 sys.exit(0)

modelled as a small-step machine. The main thread spawns one thread per
host (no concurrency bound appears anywhere in the source), then joins them
in order, then blocks in Queue.join until the unfinished-task counter
reaches zero. A worker thread either puts one item on the queue or dies via
SystemExit without emitting (emits = false). The print_manager daemon pops
one queued item, prints it and calls task_done, as one atomic step. -/

inductive WStatus
  | idle
  | running
  | done
deriving DecidableEq

inductive MPhase
  | spawning (k : Nat)
  | joining (k : Nat)
  | draining
  | exited
deriving DecidableEq

structure MState where
  workers : List WStatus
  phase : MPhase
  queued : Nat
  printed : Nat
  emitted : Nat
deriving DecidableEq

/-- The state at the start of main's dispatch section, for n targets. -/
def initState (n : Nat) : MState :=
  { workers := List.replicate n .idle, phase := .spawning 0,
    queued := 0, printed := 0, emitted := 0 }

/-- One interleaved step of the main thread, a worker thread or the
print_manager daemon. -/
inductive DStep : MState → MState → Prop
  | spawn (s : MState) (k : Nat) :
      s.phase = .spawning k → s.workers[k]? = some .idle →
      DStep s { s with workers := s.workers.set k .running,
                       phase := .spawning (k + 1) }
  | spawnFinished (s : MState) (k : Nat) :
      s.phase = .spawning k → k = s.workers.length →
      DStep s { s with phase := .joining 0 }
  | workerEnd (s : MState) (i : Nat) (emits : Bool) :
      s.workers[i]? = some .running →
      DStep s { s with workers := s.workers.set i .done,
                       queued := s.queued + (if emits then 1 else 0),
                       emitted := s.emitted + (if emits then 1 else 0) }
  | printOne (s : MState) (q : Nat) :
      s.queued = q + 1 →
      DStep s { s with queued := q, printed := s.printed + 1 }
  | joinNext (s : MState) (k : Nat) :
      s.phase = .joining k → s.workers[k]? = some .done →
      DStep s { s with phase := .joining (k + 1) }
  | joinFinished (s : MState) (k : Nat) :
      s.phase = .joining k → k = s.workers.length →
      DStep s { s with phase := .draining }
  | queueJoinReturns (s : MState) :
      s.phase = .draining → s.queued = 0 →
      DStep s { s with phase := .exited }

/-- States the run with n targets can reach. -/
def Reachable (n : Nat) (s : MState) : Prop :=
  Relation.ReflTransGen DStep (initState n) s

/-- Number of workers whose operation is currently in flight. -/
def inFlight (s : MState) : Nat :=
  s.workers.countP (fun w => w == .running)

/-- The inductive invariant of the machine. -/
def MInv (n : Nat) (s : MState) : Prop :=
  s.workers.length = n
  ∧ s.queued + s.printed = s.emitted
  ∧ (∀ k, s.phase = .joining k → ∀ i, i < k → s.workers[i]? = some .done)
  ∧ (s.phase = .draining → ∀ i, i < n → s.workers[i]? = some .done)
  ∧ (s.phase = .exited →
      (∀ i, i < n → s.workers[i]? = some .done) ∧ s.queued = 0)

lemma mInv_init (n : Nat) : MInv n (initState n) := by
  refine ⟨by simp [initState], by simp [initState], ?_, ?_, ?_⟩
  · intro k h
    exact absurd h (by simp [initState])
  · intro h
    exact absurd h (by simp [initState])
  · intro h
    exact absurd h (by simp [initState])

lemma mInv_step (n : Nat) (s s2 : MState) (hinv : MInv n s) (hstep : DStep s s2) :
    MInv n s2 := by
  obtain ⟨hlen, hq, hjoin, hdrain, hexit⟩ := hinv
  cases hstep with
  | spawn k hph hw =>
    refine ⟨by simpa using hlen, hq, ?_, ?_, ?_⟩
    · intro k2 h
      exact absurd h (by simp)
    · intro h
      exact absurd h (by simp)
    · intro h
      exact absurd h (by simp)
  | spawnFinished k hph hk =>
    refine ⟨hlen, hq, ?_, ?_, ?_⟩
    · intro k2 h i hi
      have : (0 : Nat) = k2 := by simpa using h
      omega
    · intro h
      exact absurd h (by simp)
    · intro h
      exact absurd h (by simp)
  | workerEnd i emits hw =>
    have hi : i < s.workers.length := (List.getElem?_eq_some.mp hw).1
    refine ⟨by simpa using hlen, by simp only; omega, ?_, ?_, ?_⟩
    · intro k hph j hj
      have hold := hjoin k hph j hj
      by_cases hji : i = j
      · subst hji
        exact List.getElem?_set_self hi
      · rw [List.getElem?_set_ne hji]
        exact hold
    · intro hph j hj
      have hold := hdrain hph j hj
      by_cases hji : i = j
      · subst hji
        exact List.getElem?_set_self hi
      · rw [List.getElem?_set_ne hji]
        exact hold
    · intro hph
      exfalso
      have hdone := (hexit hph).1 i (hlen ▸ hi)
      rw [hdone] at hw
      exact WStatus.noConfusion (Option.some.inj hw)
  | printOne q hqd =>
    refine ⟨hlen, by simp only; omega, ?_, ?_, ?_⟩
    · intro k hph j hj
      exact hjoin k hph j hj
    · intro hph j hj
      exact hdrain hph j hj
    · intro hph
      exfalso
      have := (hexit hph).2
      omega
  | joinNext k hph hw =>
    refine ⟨hlen, hq, ?_, ?_, ?_⟩
    · intro k2 h j hj
      have hk2 : k + 1 = k2 := by simpa using h
      subst hk2
      by_cases hjk : j = k
      · subst hjk
        exact hw
      · exact hjoin k hph j (by omega)
    · intro h
      exact absurd h (by simp)
    · intro h
      exact absurd h (by simp)
  | joinFinished k hph hk =>
    refine ⟨hlen, hq, ?_, ?_, ?_⟩
    · intro k2 h
      exact absurd h (by simp)
    · intro _ j hj
      exact hjoin k hph j (by omega)
    · intro h
      exact absurd h (by simp)
  | queueJoinReturns hph hq0 =>
    refine ⟨hlen, hq, ?_, ?_, ?_⟩
    · intro k2 h
      exact absurd h (by simp)
    · intro h
      exact absurd h (by simp)
    · intro _
      exact ⟨fun i hi => hdrain hph i hi, hq0⟩

lemma mInv_reachable (n : Nat) (s : MState) (h : Reachable n s) : MInv n s := by
  induction h with
  | refl => exact mInv_init n
  | tail hr hstep ih => exact mInv_step n _ _ ih hstep

/-- The spawn loop runs to completion before any join: after k iterations the
first k workers are all running and none has been joined. -/
lemma spawnAll (n : Nat) : ∀ k, k ≤ n →
    Reachable n { workers := List.replicate k WStatus.running ++
                    List.replicate (n - k) WStatus.idle,
                  phase := .spawning k, queued := 0, printed := 0, emitted := 0 } := by
  intro k
  induction k with
  | zero =>
    intro _
    exact Relation.ReflTransGen.refl
  | succ k ih =>
    intro hk
    have hkn : k < n := by omega
    have hprev := ih (by omega)
    have hidle : (List.replicate k WStatus.running ++
        List.replicate (n - k) WStatus.idle)[k]? = some WStatus.idle := by
      rw [List.getElem?_append_right (by simp)]
      simp [hkn]
    have hstep := DStep.spawn
      { workers := List.replicate k WStatus.running ++
          List.replicate (n - k) WStatus.idle,
        phase := .spawning k, queued := 0, printed := 0, emitted := 0 }
      k rfl hidle
    have hset : (List.replicate k WStatus.running ++
        List.replicate (n - k) WStatus.idle).set k WStatus.running =
        List.replicate (k + 1) WStatus.running ++
          List.replicate (n - (k + 1)) WStatus.idle := by
      rw [List.set_append_right k _ (by simp)]
      have h2 : n - k = (n - k - 1) + 1 := by omega
      have h3 : n - (k + 1) = n - k - 1 := by omega
      have h4 : k - (List.replicate k WStatus.running).length = 0 := by simp
      rw [h4, h2, List.replicate_succ, List.set_cons_zero, h3,
        List.replicate_succ', List.append_assoc]
      rfl
    rw [hset] at hstep
    exact hprev.tail hstep

/-- The state reached when main has spawned all 26 workers of a 26-target
run and none has yet completed. -/
def allSpawned26 : MState :=
  { workers := List.replicate 26 WStatus.running ++
      List.replicate (26 - 26) WStatus.idle,
    phase := .spawning 26, queued := 0, printed := 0, emitted := 0 }

/-- C1 counterexample: the source has no concurrency cap (no semaphore, no
pool, no constant 25 appears anywhere); with 26 targets the run reaches a
state where all 26 operations are in flight at once, exceeding
min 25 |targets| = 25. -/
theorem bounded_concurrency_refuted :
    ¬ (∀ (n : Nat) (s : MState), Reachable n s → inFlight s ≤ min 25 n) := by
  intro hclaim
  have hle := hclaim 26 allSpawned26 (spawnAll 26 26 (le_refl 26))
  have hval : inFlight allSpawned26 = 26 := by decide
  rw [hval] at hle
  omega

/-- C1 amended: the only bound on concurrently in-flight operations is the
number of targets itself — main starts one thread per host, so at every
reachable state the in-flight count is at most |targets|. -/
theorem inFlight_le_targets (n : Nat) (s : MState) (hr : Reachable n s) :
    inFlight s ≤ n := by
  have hlen := (mInv_reachable n s hr).1
  calc inFlight s ≤ s.workers.length := List.countP_le_length _
    _ = n := hlen

/-- Witness for the amended C1 theorem at the concrete 26-target all-spawned
state, whose reachability is discharged by spawnAll. -/
theorem inFlight_le_targets_witness : inFlight allSpawned26 ≤ 26 :=
  inFlight_le_targets 26 allSpawned26 (spawnAll 26 26 (le_refl 26))

/-- C5: when main's dispatch section exits (after the join loop and
print_queue.join()), every started worker has terminated and the queue has
been fully drained and rendered: no emitted output is left unflushed. -/
theorem run_exits_only_after_drain (n : Nat) (s : MState)
    (hr : Reachable n s) (hex : s.phase = .exited) :
    s.workers.all (fun w => w == .done) = true
    ∧ s.queued = 0
    ∧ s.printed = s.emitted := by
  obtain ⟨hlen, hq, _, _, hexit⟩ := mInv_reachable n s hr
  obtain ⟨hdone, hq0⟩ := hexit hex
  refine ⟨?_, hq0, by omega⟩
  rw [List.all_eq_true]
  intro w hw
  obtain ⟨i, hi, hget⟩ := List.mem_iff_getElem.mp hw
  have := hdone i (hlen ▸ hi)
  rw [List.getElem?_eq_some] at this
  obtain ⟨_, hval⟩ := this
  rw [hget] at hval
  simp [hval]

/-- The complete 0-target run: main spawns nothing, joins nothing, and
Queue.join returns at once, reaching the exited state. -/
lemma reachable_exited_zero :
    Reachable 0 { workers := [], phase := .exited,
                  queued := 0, printed := 0, emitted := 0 } := by
  have h1 : DStep (initState 0) { initState 0 with phase := .joining 0 } :=
    DStep.spawnFinished (initState 0) 0 rfl rfl
  have h2 : DStep { initState 0 with phase := .joining 0 }
      { initState 0 with phase := .draining } :=
    DStep.joinFinished { initState 0 with phase := .joining 0 } 0 rfl rfl
  have h3 : DStep { initState 0 with phase := .draining }
      { initState 0 with phase := .exited } :=
    DStep.queueJoinReturns { initState 0 with phase := .draining } rfl rfl
  exact ((Relation.ReflTransGen.refl.tail h1).tail h2).tail h3

/-- Witness for C5 at the terminal state of the 0-target run. -/
theorem run_exits_only_after_drain_witness :
    ({ workers := [], phase := .exited, queued := 0, printed := 0,
       emitted := 0 } : MState).workers.all (fun w => w == .done) = true
    ∧ ({ workers := [], phase := .exited, queued := 0, printed := 0,
         emitted := 0 } : MState).queued = 0
    ∧ ({ workers := [], phase := .exited, queued := 0, printed := 0,
         emitted := 0 } : MState).printed =
      ({ workers := [], phase := .exited, queued := 0, printed := 0,
         emitted := 0 } : MState).emitted :=
  run_exits_only_after_drain 0 _ reachable_exited_zero rfl

/-- main's final statement is sys.exit(0), the success exit status. -/
def mainExitArg : Nat := 0

lemma reachable_zero_fields (s : MState) (h : Reachable 0 s) :
    s.workers = [] ∧ s.queued = 0 ∧ s.printed = 0 ∧ s.emitted = 0 := by
  induction h with
  | refl => exact ⟨rfl, rfl, rfl, rfl⟩
  | tail hr hstep ih =>
    obtain ⟨hw, hq, hp, he⟩ := ih
    cases hstep with
    | spawn k hph hws =>
      rw [hw] at hws
      exact absurd hws (by simp)
    | spawnFinished k hph hk => exact ⟨hw, hq, hp, he⟩
    | workerEnd i emits hws =>
      rw [hw] at hws
      exact absurd hws (by simp)
    | printOne q hqd =>
      rw [hq] at hqd
      exact absurd hqd (by omega)
    | joinNext k hph hws => exact ⟨hw, hq, hp, he⟩
    | joinFinished k hph hk => exact ⟨hw, hq, hp, he⟩
    | queueJoinReturns hph hq0 => exact ⟨hw, hq, hp, he⟩

/-- C7: with an empty targets list no worker is ever spawned, nothing is
ever queued, printed or emitted in any reachable state, the run reaches the
exited state (the aggregator returns immediately), and the process exit
status is the success value 0. -/
theorem empty_targets_success :
    (∀ s : MState, Reachable 0 s →
        s.workers = [] ∧ s.queued = 0 ∧ s.printed = 0 ∧ s.emitted = 0)
    ∧ Reachable 0 { workers := [], phase := .exited,
                    queued := 0, printed := 0, emitted := 0 }
    ∧ mainExitArg = 0 :=
  ⟨reachable_zero_fields, reachable_exited_zero, rfl⟩

/-- Witness for C7 applied at the initial state of the 0-target run. -/
theorem empty_targets_success_witness :
    (initState 0).workers = [] ∧ (initState 0).queued = 0
    ∧ (initState 0).printed = 0 ∧ (initState 0).emitted = 0 :=
  empty_targets_success.1 (initState 0) Relation.ReflTransGen.refl

/-- C10: whenever the target list is read from piped stdin, each line is
stripped and lines that become empty are removed, so the resulting target
list never contains an empty string. -/
theorem stdin_hosts_nonempty (lines : List String) (s : String)
    (hs : s ∈ readStdinHosts lines) : s ≠ "" := by
  unfold readStdinHosts at hs
  have hmem := List.mem_filter.mp hs
  simpa using hmem.2

/-- Witness for C10 on an input mixing a padded host line, a blank-only line
and an empty line. -/
theorem stdin_hosts_nonempty_witness :
    "fw1" ∈ readStdinHosts ["  fw1 \n", "   ", ""] ∧ "fw1" ≠ "" :=
  ⟨by decide, stdin_hosts_nonempty ["  fw1 \n", "   ", ""] "fw1" (by decide)⟩

/-! ## run_panw_cmd.connect_ssh and the worker-thread failure path
(src/panw_utils/run_panw_cmd.py). The netmiko transport is the opaque
collaborator: `conn` is either a send-command function or the exception the
ConnectHandler/send_command raised. -/

/-- '=' * (len(host) + 4), the banner bar of print_output. -/
def hostBar (host : String) : String :=
  String.mk (List.replicate (host.length + 4) '=')

/-- '\n'.join(text.split('\n')[1:]): drop the first line of a command
response. -/
def dropFirstLine (s : String) : String :=
  String.intercalate "\n" ((s.splitOn "\n").drop 1)

/-- The output list built by the command loop of connect_ssh:
for each cmd, append '=== {cmd} ===' and the trimmed response. -/
def cmdOutput (send : String → String) (commands : List String) : List String :=
  commands.foldl
    (fun acc cmd => acc ++ ["=== " ++ cmd ++ " ===", dropFirstLine (send cmd)]) []

/-- print_output: the one banner-framed job the worker puts on print_queue. -/
def print_output (output : List String) (host : String) : List String :=
  [hostBar host, "= " ++ host ++ " =", hostBar host] ++ output ++ ["\n"]

/-- Everything externally visible that one worker thread did: the jobs it
put on print_queue (the result channel) and the lines it wrote to stderr. -/
structure WorkerEffect where
  emitted : List (List String)
  errlines : List String
deriving DecidableEq

/-- connect_ssh: on success one job is queued via print_output; on any
exception the worker writes 'Connection error: ...' to stderr and calls
sys.exit(1), which in a non-main thread raises SystemExit inside that
thread only — the thread dies, queues nothing, and main is unaffected. -/
def connect_ssh (commands : List String) (host : String)
    (conn : Except String (String → String)) : WorkerEffect :=
  match conn with
  | .error e => { emitted := [], errlines := ["Connection error: " ++ e] }
  | .ok send =>
      { emitted := [print_output (cmdOutput send commands) host], errlines := [] }

/-- One worker thread per (host, transport) pair, each running connect_ssh
independently. -/
def runWorkers (commands : List String)
    (jobs : List (String × Except String (String → String))) :
    List WorkerEffect :=
  jobs.map (fun j => connect_ssh commands j.1 j.2)

/-- C2 counterexample: a worker whose operation fails emits NO outcome onto
the result channel — in particular it does not emit a single Failure
outcome carrying the host and cause; the cause only goes to stderr. -/
theorem failure_outcome_refuted :
    (connect_ssh ["show clock"] "fw1" (.error "timeout")).emitted = []
    ∧ ¬ ∃ o, (connect_ssh ["show clock"] "fw1" (.error "timeout")).emitted = [o] := by
  constructor
  · rfl
  · rintro ⟨o, ho⟩
    rw [show (connect_ssh ["show clock"] "fw1" (.error "timeout")).emitted = []
      from rfl] at ho
    exact List.noConfusion ho

/-- C2 amended: a failing operation never terminates the dispatcher or the
process and never alters any other target's outcome — the worker dies after
writing the cause to stderr — but no Failure outcome is produced: the
failing target contributes nothing to the result channel. Each position's
effect is a function of that position's own host and transport alone. -/
theorem failure_isolated_no_outcome :
    (∀ (commands : List String) (host cause : String),
        connect_ssh commands host (.error cause) =
          { emitted := [], errlines := ["Connection error: " ++ cause] })
    ∧ (∀ (commands : List String)
        (jobs : List (String × Except String (String → String))) (i : Nat),
        (runWorkers commands jobs)[i]? =
          (jobs[i]?).map (fun j => connect_ssh commands j.1 j.2)) := by
  constructor
  · intro commands host cause
    rfl
  · intro commands jobs i
    exact List.getElem?_map _ _ _

/-! ## get_panw_config.query_api and the aggregated result count
(src/panw_utils/get_panw_config.py; the get_panw_interfaces.worker has the
same shape: a worker whose query fails puts nothing on the results queue). -/

/-- print_config: the one banner-framed job queued for a successful host. -/
def print_config (config : String) (host : String) : List String :=
  [hostBar host, "= " ++ host ++ " =", hostBar host, config]

/-- get_panw_config.query_api run by one worker thread: on OSError it writes
one line to stderr and returns None — no job is queued for that host; on
success it queues exactly one job via print_config. -/
def query_api_cfg (host : String) (resp : Except String String) :
    Option (List String) × List String :=
  match resp with
  | .error err =>
      (none, [host ++ ": Unable to connect to host (" ++ err ++ ")\n"])
  | .ok xml_config => (some (print_config xml_config host), [])

/-- The jobs accumulated on print_queue over a whole run — the aggregator's
final result set. -/
def runConfigJobs (hosts : List String) (resps : List (Except String String)) :
    List (List String) :=
  ((hosts.zip resps).map (fun p => query_api_cfg p.1 p.2)).filterMap Prod.fst

/-- Number of targets whose transport succeeded. -/
def countOk (resps : List (Except String String)) : Nat :=
  resps.countP (fun r => r.isOk)

/-- C3 counterexample: a two-target run in which one target's operation
fails yields a final result set of size 1, not 2 — the failed target
produces no outcome at all. -/
theorem result_set_size_refuted :
    (runConfigJobs ["fw1", "fw2"]
        [Except.ok "<config/>", Except.error "timed out"]).length = 1
    ∧ ¬ ((runConfigJobs ["fw1", "fw2"]
          [Except.ok "<config/>", Except.error "timed out"]).length
        = (["fw1", "fw2"] : List String).length) := by
  constructor
  · rfl
  · intro h
    rw [show (runConfigJobs ["fw1", "fw2"]
        [Except.ok "<config/>", Except.error "timed out"]).length = 1 from rfl] at h
    simp at h

/-- C3 amended: the aggregator's final result set contains exactly one
outcome per target whose operation succeeded — failed targets contribute
nothing — so its size is the success count, never more than the number of
targets. -/
theorem result_set_size_eq_success_count :
    ∀ (hosts : List String) (resps : List (Except String String)),
      hosts.length = resps.length →
      (runConfigJobs hosts resps).length = countOk resps
      ∧ (runConfigJobs hosts resps).length ≤ hosts.length := by
  intro hosts
  induction hosts with
  | nil =>
    intro resps hlen
    have : resps = [] := List.eq_nil_of_length_eq_zero hlen.symm
    subst this
    exact ⟨rfl, by simp [runConfigJobs]⟩
  | cons h hs ih =>
    intro resps hlen
    cases resps with
    | nil => simp at hlen
    | cons r rs =>
      obtain ⟨ih1, ih2⟩ := ih rs (by simpa using hlen)
      cases r with
      | ok v =>
        refine ⟨?_, ?_⟩ <;>
          simp [runConfigJobs, countOk, query_api_cfg, Except.isOk, Except.toBool,
            List.filterMap_cons, List.countP_cons] at ih1 ih2 ⊢ <;> omega
      | error e =>
        refine ⟨?_, ?_⟩ <;>
          simp [runConfigJobs, countOk, query_api_cfg, Except.isOk, Except.toBool,
            List.filterMap_cons, List.countP_cons] at ih1 ih2 ⊢ <;> omega

/-- Witness for the amended C3 theorem on a concrete mixed run. -/
theorem result_set_size_eq_success_count_witness :
    (runConfigJobs ["fw1", "fw2"]
        [Except.ok "<config/>", Except.error "timed out"]).length
      = countOk [Except.ok "<config/>", Except.error "timed out"]
    ∧ (runConfigJobs ["fw1", "fw2"]
        [Except.ok "<config/>", Except.error "timed out"]).length
      ≤ (["fw1", "fw2"] : List String).length :=
  result_set_size_eq_success_count ["fw1", "fw2"]
    [Except.ok "<config/>", Except.error "timed out"] rfl

/-! ## get_panw_interfaces.results_manager: arrival-order aggregation
(src/panw_utils/get_panw_interfaces.py). Each worker, when it completes,
puts its parsed result (whose rows carry Firewall = its own host) on
results_queue; results_manager appends each received result to the global
results list, and print_results then iterates that list in order. The
render order of hosts is therefore the order in which workers completed. -/

/-- The hosts in rendered order, given the completion order of the workers
as a list of indices into the input host list. -/
def arrivalResults (hosts : List String) (arrivals : List Nat) : List String :=
  arrivals.filterMap (fun i => hosts[i]?)

/-- C4 counterexample: a valid completion order (a permutation of the worker
indices) in which the second host answers first makes the rendered host
order differ from the input order — there is no re-sort by submission
position. -/
theorem submission_order_refuted :
    ([1, 0] : List Nat).Perm (List.range 2)
    ∧ arrivalResults ["fw-a", "fw-b"] [1, 0] = ["fw-b", "fw-a"]
    ∧ arrivalResults ["fw-a", "fw-b"] [1, 0] ≠ ["fw-a", "fw-b"] := by
  refine ⟨by decide, by decide, by decide⟩

/-- C4 amended: the rendered host order equals the completion (arrival)
order. It coincides with the input order exactly when workers happen to
complete in submission order; for any completion order that is a
permutation of the worker indices, the rendered hosts are a permutation of
the input hosts. -/
theorem rendered_order_is_arrival_order :
    (∀ hosts : List String,
        arrivalResults hosts (List.range hosts.length) = hosts)
    ∧ (∀ (hosts : List String) (arrivals : List Nat),
        arrivals.Perm (List.range hosts.length) →
        (arrivalResults hosts arrivals).Perm hosts) := by
  have hid : ∀ hosts : List String,
      arrivalResults hosts (List.range hosts.length) = hosts := by
    intro hosts
    induction hosts with
    | nil => rfl
    | cons a rest ih =>
      unfold arrivalResults at ih ⊢
      rw [List.length_cons, List.range_succ_eq_map, List.filterMap_cons]
      simp only [List.getElem?_cons_zero, List.filterMap_map]
      have hfun : ((fun i => (a :: rest)[i]?) ∘ Nat.succ) =
          (fun i => rest[i]?) := by
        funext i
        simp
      rw [hfun, ih]
  refine ⟨hid, ?_⟩
  intro hosts arrivals hperm
  have hpf := hperm.filterMap (fun i => hosts[i]?)
  rw [show arrivals.filterMap (fun i => hosts[i]?) = arrivalResults hosts arrivals
    from rfl] at hpf
  have h2 : List.filterMap (fun i => hosts[i]?) (List.range hosts.length) = hosts :=
    hid hosts
  rw [h2] at hpf
  exact hpf

/-- Witness for the amended C4 theorem at a concrete out-of-order
completion. -/
theorem rendered_order_is_arrival_order_witness :
    (arrivalResults ["fw-a", "fw-b"] [1, 0]).Perm ["fw-a", "fw-b"] :=
  rendered_order_is_arrival_order.2 ["fw-a", "fw-b"] [1, 0] (by decide)

/-! ## Process exit codes (run_panw_cmd.py, get_panw_api_key.py):
sigint_handler does sys.exit(1); main always ends with sys.exit(0); a
worker's sys.exit(1) raises SystemExit inside its own thread only and never
changes the process exit status. -/

/-- sigint_handler: sys.exit(1) — the cancellation exit status. -/
def sigintExitArg : Nat := 1

/-- The externally visible result of a whole run_panw_cmd run. -/
structure ProcRun where
  jobs : List (List String)
  errlines : List String
  exitArg : Nat

/-- run_panw_cmd.main after dispatch: all worker effects are collected (jobs
drained by print_manager, stderr lines written as they happen) and then
main unconditionally executes sys.exit(0), whatever the workers did. -/
def run_panw_cmd_main (commands : List String)
    (jobs : List (String × Except String (String → String))) : ProcRun :=
  { jobs := (runWorkers commands jobs).foldl (fun acc r => acc ++ r.emitted) []
    errlines :=
      (runWorkers commands jobs).foldl (fun acc r => acc ++ r.errlines) []
    exitArg := mainExitArg }

/-- C6 counterexample: a run in which one of two targets fails (its
connection error is on stderr, only one job was rendered) exits with the
same status as a fully successful run — partial failure and full success do
not map to distinct exit codes, so the three terminal states map to only
two values. -/
theorem three_exit_codes_refuted :
    (run_panw_cmd_main ["show clock"]
        [("fw1", Except.ok (fun _ => "hdr\nok")),
         ("fw2", Except.error "timeout")]).errlines ≠ []
    ∧ (run_panw_cmd_main ["show clock"]
        [("fw1", Except.ok (fun _ => "hdr\nok")),
         ("fw2", Except.error "timeout")]).jobs.length = 1
    ∧ (run_panw_cmd_main ["show clock"]
        [("fw1", Except.ok (fun _ => "hdr\nok")),
         ("fw2", Except.error "timeout")]).exitArg
      = (run_panw_cmd_main ["show clock"]
          [("fw1", Except.ok (fun _ => "hdr\nok"))]).exitArg := by
  refine ⟨?_, rfl, rfl⟩
  intro h
  rw [show (run_panw_cmd_main ["show clock"]
      [("fw1", Except.ok (fun _ => "hdr\nok")),
       ("fw2", Except.error "timeout")]).errlines
      = ["Connection error: " ++ "timeout"] from rfl] at h
  exact List.noConfusion h

/-- C6 amended: only two exit statuses exist — the run itself always exits
with 0 (success), regardless of how many targets failed, while cancellation
via the interrupt handler exits with the distinct value 1. -/
theorem exit_codes_two_values :
    (∀ (commands : List String)
        (jobs : List (String × Except String (String → String))),
        (run_panw_cmd_main commands jobs).exitArg = mainExitArg)
    ∧ sigintExitArg = 1
    ∧ mainExitArg = 0
    ∧ decide (sigintExitArg = mainExitArg) = false :=
  ⟨fun _ _ => rfl, rfl, rfl, rfl⟩
